import Mathlib

/-!
Verification of the 360° panoramic view registry
(`src/ai_filmmaking/environment_manager.py`).

Shallow embedding conventions:
* Python floats are modelled by `ℚ` (the module only adds, halves and
  takes `% 360`, so all values stay rational).
* Python `x % 360` (sign of the divisor, here positive) is `pymod x 360`.
* Python `int(x)` (truncation toward zero) is `pytrunc x`.
* Python dicts (insertion ordered, update-in-place) are association
  lists with `updateAssoc` / `lookupAssoc`.
* PIL images are lists of columns (`List (List α)`): the image width is
  the list length, every column is the list of its pixels.  `crop` with
  box `(l, 0, r, height)` keeps columns `[l, r)` whole, which matches
  `Image.crop` for in-bounds boxes, the only regime the module uses.
-/

attribute [local semireducible] Rat.sub Rat.add Rat.mul

/-- The floor `⌊q⌋` computed directly on the numerator and denominator, so that the
kernel can evaluate it on concrete rationals. -/
def qfloor (q : ℚ) : ℤ := q.num.fdiv q.den

/-- Exact rational division computed directly on numerators and
denominators, so that the kernel can evaluate it on concrete rationals
(`qdiv_eq` identifies it with `a / b`). -/
def qdiv (a b : ℚ) : ℚ := Rat.divInt (a.num * b.den) (a.den * b.num)

/-- Python `a % b` for a positive rational modulus `b`:
the representative of `a` modulo `b` lying in `[0, b)`. -/
def pymod (a b : ℚ) : ℚ := a - b * qfloor (qdiv a b)

/-- Python `int(x)`: truncation toward zero. -/
def pytrunc (q : ℚ) : ℤ := if 0 ≤ q then qfloor q else -qfloor (-q)

/-- One entry of `self.character_positions`
(`{"angle": angle_degrees % 360, "depth": depth}`). -/
structure CharPosition where
  angle : ℚ
  depth : ℚ
deriving DecidableEq

/-- One entry of `self.camera_angles`
(`{"angle": ..., "fov": ..., "visible_range": (..., ...)}`). -/
structure CameraRecord where
  angle : ℚ
  fov : ℚ
  visible_range : ℚ × ℚ
deriving DecidableEq

/-- The mutable state of `EnvironmentManager`: the two dicts
`character_positions` and `camera_angles` (the output directory plays no
role in the claims). -/
structure EnvironmentManager where
  character_positions : List (String × CharPosition)
  camera_angles : List (String × CameraRecord)
deriving DecidableEq

/-- The state right after `EnvironmentManager.__init__`: both dicts empty. -/
def empty0 : EnvironmentManager := ⟨[], []⟩

/-- Dict lookup `d[k]` in an insertion-ordered dict modelled as an
association list. -/
def lookupAssoc {α : Type} : List (String × α) → String → Option α
  | [], _ => none
  | p :: rest, k => if p.1 = k then some p.2 else lookupAssoc rest k

/-- Dict update `d[k] = v` on an insertion-ordered dict: replace the first binding of
`k` in place, else append a new binding at the end. -/
def updateAssoc {α : Type} : List (String × α) → String → α → List (String × α)
  | [], k, v => [(k, v)]
  | p :: rest, k, v => if p.1 = k then (k, v) :: rest else p :: updateAssoc rest k v

/-- Embeds `EnvironmentManager.register_character_position`. -/
def register_character_position (env : EnvironmentManager)
    (character_name : String) (angle_degrees : ℚ) (depth : ℚ) :
    EnvironmentManager :=
  { env with
    character_positions :=
      updateAssoc env.character_positions character_name
        ⟨pymod angle_degrees 360, depth⟩ }

/-- The record `EnvironmentManager.register_camera_angle` stores for
parameters `(angle, field_of_view)`. -/
def camRecord (angle field_of_view : ℚ) : CameraRecord :=
  ⟨pymod angle 360, field_of_view,
    (pymod (angle - qdiv field_of_view 2) 360,
     pymod (angle + qdiv field_of_view 2) 360)⟩

/-- Embeds `EnvironmentManager.register_camera_angle`. -/
def register_camera_angle (env : EnvironmentManager)
    (scene_id : String) (angle : ℚ) (field_of_view : ℚ) :
    EnvironmentManager :=
  { env with
    camera_angles :=
      updateAssoc env.camera_angles scene_id (camRecord angle field_of_view) }

/-- The body of the loop in `get_visible_characters`: the name produced
for one `(char_name, position)` pair, given the camera's visible range. -/
def visibility_entry (start_angle end_angle : ℚ)
    (p : String × CharPosition) : Option String :=
  if start_angle ≤ end_angle then
    if start_angle ≤ p.2.angle ∧ p.2.angle ≤ end_angle then some p.1 else none
  else
    if p.2.angle ≥ start_angle ∨ p.2.angle ≤ end_angle then some p.1 else none

/-- Embeds `EnvironmentManager.get_visible_characters`: `[]` when the camera is
unregistered, else the loop over `character_positions` appending the
names that pass the two-branch circular-interval test. -/
def get_visible_characters (env : EnvironmentManager) (scene_id : String) :
    List String :=
  match lookupAssoc env.camera_angles scene_id with
  | none => []
  | some camera =>
      env.character_positions.filterMap
        (visibility_entry camera.visible_range.1 camera.visible_range.2)

/-- Pixel conversion `int((angle / 360) * width)` of
`_crop_panorama_view`. -/
def angle_to_px (angle : ℚ) (width : ℕ) : ℤ :=
  pytrunc (qdiv angle 360 * (width : ℚ))

/-- Embeds `PIL.Image.crop` with box `(l, 0, r, height)` on a column-list image:
keep columns `[l, r)`. -/
def crop {α : Type} (img : List (List α)) (l r : ℕ) : List (List α) :=
  (img.take r).drop l

/-- Embeds `EnvironmentManager._crop_panorama_view`. -/
def crop_panorama_view {α : Type} (panorama : List (List α))
    (camera : CameraRecord) : List (List α) :=
  let width := panorama.length
  let start_px := angle_to_px camera.visible_range.1 width
  let end_px := angle_to_px camera.visible_range.2 width
  if end_px < start_px then
    let left_part := crop panorama start_px.toNat width
    let right_part := crop panorama 0 end_px.toNat
    left_part ++ right_part
  else
    crop panorama start_px.toNat end_px.toNat

/-- Embeds `EnvironmentManager.extract_camera_view` (the image I/O replaced by
the buffer argument and result): `ValueError` for an unregistered scene,
else the cropped view. -/
def extract_camera_view {α : Type} (env : EnvironmentManager)
    (panorama : List (List α)) (scene_id : String) :
    Except String (List (List α)) :=
  match lookupAssoc env.camera_angles scene_id with
  | none => Except.error "Camera angle not registered for scene"
  | some camera => Except.ok (crop_panorama_view panorama camera)

/-- The angle-to-pixel conversion as the SPEC words it
(`px = round(angle/360 * width)`), defined only to be compared against
the `angle_to_px` the code implements. -/
def spec_round_px (angle : ℚ) (width : ℕ) : ℤ :=
  round (angle / 360 * (width : ℚ))

/-- The registry state used to witness C1: one entity `"A"` at 30°,
one camera `"s"` at 30° with a 60° field of view. -/
def envC1 : EnvironmentManager :=
  register_camera_angle (register_character_position empty0 "A" 30 1) "s" 30 60

/-- A concrete 1000-column panorama whose column `i` is the singleton
`[i]`, used to witness the wrap-around crop claim. -/
def pano1000 : List (List ℕ) := (List.range 1000).map (fun i => [i])

/-! ### Bridging the computable helpers to Mathlib's `⌊⌋` and `/` -/

theorem qfloor_eq (q : ℚ) : qfloor q = ⌊q⌋ := by
  rw [qfloor, Int.fdiv_eq_ediv _ (by positivity), Rat.floor_def]

theorem qdiv_eq (a b : ℚ) : qdiv a b = a / b := by
  rcases eq_or_ne b 0 with rfl | hb
  · simp [qdiv]
  · have hbn : (b.num : ℚ) ≠ 0 := by
      exact_mod_cast Rat.num_ne_zero.mpr hb
    have had : (a.den : ℚ) ≠ 0 := by
      exact_mod_cast a.den_ne_zero
    have hbd : (b.den : ℚ) ≠ 0 := by
      exact_mod_cast b.den_ne_zero
    have ha' : (a.num : ℚ) = a * a.den := (div_eq_iff had).mp (Rat.num_div_den a)
    have hb' : (b.num : ℚ) = b * b.den := (div_eq_iff hbd).mp (Rat.num_div_den b)
    rw [qdiv, Rat.divInt_eq_div]
    push_cast
    rw [div_eq_div_iff (mul_ne_zero had hbn) hb]
    rw [ha', hb']; ring

theorem pymod_eq (a b : ℚ) : pymod a b = a - b * ⌊a / b⌋ := by
  rw [pymod, qdiv_eq, qfloor_eq]

theorem pytrunc_eq_floor {q : ℚ} (h : 0 ≤ q) : pytrunc q = ⌊q⌋ := by
  rw [pytrunc, if_pos h, qfloor_eq]

/-! ### Elementary facts about `pymod` -/

theorem pymod_nonneg (a b : ℚ) (hb : 0 < b) : 0 ≤ pymod a b := by
  rw [pymod_eq]
  have h1 : (⌊a / b⌋ : ℚ) ≤ a / b := Int.floor_le _
  have h2 : b * (⌊a / b⌋ : ℚ) ≤ b * (a / b) :=
    mul_le_mul_of_nonneg_left h1 hb.le
  have h3 : b * (a / b) = a := by field_simp
  linarith

theorem pymod_lt (a b : ℚ) (hb : 0 < b) : pymod a b < b := by
  rw [pymod_eq]
  have h1 : a / b < (⌊a / b⌋ : ℚ) + 1 := Int.lt_floor_add_one _
  have h2 : b * (a / b) < b * ((⌊a / b⌋ : ℚ) + 1) :=
    mul_lt_mul_of_pos_left h1 hb
  have h3 : b * (a / b) = a := by field_simp
  rw [mul_add, mul_one] at h2
  linarith

/-- The value of `pymod` only depends on the argument modulo `b`. -/
theorem pymod_congr {a c b : ℚ} (k : ℤ) (hb : 0 < b) (h : a = c + b * k) :
    pymod a b = pymod c b := by
  rw [pymod_eq, pymod_eq, h]
  have h4 : (c + b * k) / b = c / b + k := by
    field_simp
    ring
  rw [h4, Int.floor_add_int]
  push_cast
  ring

/-! ### Elementary facts about the association-list dictionaries -/

theorem lookup_update_self {α : Type} (l : List (String × α)) (k : String) (v : α) :
    lookupAssoc (updateAssoc l k v) k = some v := by
  induction l with
  | nil => simp [updateAssoc, lookupAssoc]
  | cons p rest ih =>
      by_cases h : p.1 = k
      · simp [updateAssoc, lookupAssoc, h]
      · simp [updateAssoc, lookupAssoc, h, ih]

theorem lookup_update_ne {α : Type} (l : List (String × α)) {k k' : String} (v : α)
    (hk : k' ≠ k) : lookupAssoc (updateAssoc l k v) k' = lookupAssoc l k' := by
  induction l with
  | nil => simp [updateAssoc, lookupAssoc, Ne.symm hk]
  | cons p rest ih =>
      by_cases h : p.1 = k
      · simp [updateAssoc, lookupAssoc, h, Ne.symm hk]
      · simp [updateAssoc, lookupAssoc, h, ih]

theorem mem_of_lookup {α : Type} {l : List (String × α)} {k : String} {v : α}
    (h : lookupAssoc l k = some v) : (k, v) ∈ l := by
  induction l with
  | nil => simp [lookupAssoc] at h
  | cons p rest ih =>
      by_cases hp : p.1 = k
      · rw [lookupAssoc, if_pos hp] at h
        injection h with h2
        have hkv : (k, v) = p := by rw [← hp, ← h2]
        rw [hkv]
        exact List.mem_cons_self _ _
      · rw [lookupAssoc, if_neg hp] at h
        exact List.mem_cons_of_mem _ (ih h)

theorem lookup_of_mem_nodup {α : Type} {l : List (String × α)} {k : String} {v : α}
    (hn : (l.map Prod.fst).Nodup) (h : (k, v) ∈ l) : lookupAssoc l k = some v := by
  induction l with
  | nil => simp at h
  | cons p rest ih =>
      rw [List.map_cons, List.nodup_cons] at hn
      rcases List.mem_cons.mp h with h1 | h1
      · rw [← h1, lookupAssoc]
        simp
      · have hne : p.1 ≠ k := by
          intro he
          exact hn.1 (he ▸ List.mem_map_of_mem Prod.fst h1)
        rw [lookupAssoc, if_neg hne]
        exact ih hn.2 h1

/-- Membership in the visibility loop's output, for a registry with
unique names: exactly the two-branch circular-interval test on the
looked-up entity's angle. -/
theorem mem_visible_iff (l : List (String × CharPosition)) (s e : ℚ)
    (hn : (l.map Prod.fst).Nodup) (name : String) (pos : CharPosition)
    (hp : lookupAssoc l name = some pos) :
    name ∈ l.filterMap (visibility_entry s e) ↔
      (if s ≤ e then s ≤ pos.angle ∧ pos.angle ≤ e
       else pos.angle ≥ s ∨ pos.angle ≤ e) := by
  rw [List.mem_filterMap]
  constructor
  · rintro ⟨p, hpl, hpe⟩
    have hsome : p.1 = name ∧
        (if s ≤ e then s ≤ p.2.angle ∧ p.2.angle ≤ e
         else p.2.angle ≥ s ∨ p.2.angle ≤ e) := by
      by_cases hse : s ≤ e
      · rw [visibility_entry, if_pos hse] at hpe
        by_cases hc : s ≤ p.2.angle ∧ p.2.angle ≤ e
        · rw [if_pos hc] at hpe
          injection hpe with h2
          exact ⟨h2, by rw [if_pos hse]; exact hc⟩
        · rw [if_neg hc] at hpe
          cases hpe
      · rw [visibility_entry, if_neg hse] at hpe
        by_cases hc : p.2.angle ≥ s ∨ p.2.angle ≤ e
        · rw [if_pos hc] at hpe
          injection hpe with h2
          exact ⟨h2, by rw [if_neg hse]; exact hc⟩
        · rw [if_neg hc] at hpe
          cases hpe
    have hmem : (name, p.2) ∈ l := by
      have hp' : p = (name, p.2) := by rw [← hsome.1]
      rw [← hp']
      exact hpl
    have hlook := lookup_of_mem_nodup hn hmem
    rw [hp] at hlook
    injection hlook with h3
    rw [h3]
    exact hsome.2
  · intro hcond
    refine ⟨(name, pos), mem_of_lookup hp, ?_⟩
    by_cases hse : s ≤ e
    · rw [if_pos hse] at hcond
      simp [visibility_entry, hse, hcond.1, hcond.2]
    · rw [if_neg hse] at hcond
      simp [visibility_entry, hse, hcond]

/-- C1: for every registered camera and registered entity,
`get_visible_characters` reports the entity exactly per the two-branch
closed circular-interval test on the camera's `visible_range`
(`start ≤ end`: visible iff `start ≤ angle ≤ end`; `start > end`:
visible iff `angle ≥ start` or `angle ≤ end`); in particular an entity
whose angle equals `start` or `end` exactly is always reported
visible. -/
theorem C1_visible_entities_interval_test (env : EnvironmentManager)
    (scene_id name : String) (camera : CameraRecord) (pos : CharPosition)
    (hn : (env.character_positions.map Prod.fst).Nodup)
    (hc : lookupAssoc env.camera_angles scene_id = some camera)
    (hp : lookupAssoc env.character_positions name = some pos) :
    (name ∈ get_visible_characters env scene_id ↔
       (if camera.visible_range.1 ≤ camera.visible_range.2
        then camera.visible_range.1 ≤ pos.angle ∧
             pos.angle ≤ camera.visible_range.2
        else pos.angle ≥ camera.visible_range.1 ∨
             pos.angle ≤ camera.visible_range.2)) ∧
    ((pos.angle = camera.visible_range.1 ∨ pos.angle = camera.visible_range.2) →
       name ∈ get_visible_characters env scene_id) := by
  have hmain := mem_visible_iff env.character_positions
    camera.visible_range.1 camera.visible_range.2 hn name pos hp
  have hunfold : get_visible_characters env scene_id =
      env.character_positions.filterMap
        (visibility_entry camera.visible_range.1 camera.visible_range.2) := by
    rw [get_visible_characters, hc]
  rw [hunfold]
  refine ⟨hmain, ?_⟩
  rw [hmain]
  intro hb
  by_cases hse : camera.visible_range.1 ≤ camera.visible_range.2
  · rw [if_pos hse]
    rcases hb with h | h
    · exact ⟨le_of_eq h.symm, h ▸ hse⟩
    · exact ⟨h ▸ hse, le_of_eq h⟩
  · rw [if_neg hse]
    rcases hb with h | h
    · exact Or.inl (ge_of_eq h)
    · exact Or.inr (le_of_eq h)

/-- C1 witness: the theorem applied to `envC1`. -/
theorem C1_witness :
    ((envC1.character_positions.map Prod.fst).Nodup ∧
     lookupAssoc envC1.camera_angles "s" = some (camRecord 30 60) ∧
     lookupAssoc envC1.character_positions "A" =
       some (⟨30, 1⟩ : CharPosition)) ∧
    (("A" ∈ get_visible_characters envC1 "s" ↔
       (if (camRecord 30 60).visible_range.1 ≤ (camRecord 30 60).visible_range.2
        then (camRecord 30 60).visible_range.1 ≤ (⟨30, 1⟩ : CharPosition).angle ∧
             (⟨30, 1⟩ : CharPosition).angle ≤ (camRecord 30 60).visible_range.2
        else (⟨30, 1⟩ : CharPosition).angle ≥ (camRecord 30 60).visible_range.1 ∨
             (⟨30, 1⟩ : CharPosition).angle ≤ (camRecord 30 60).visible_range.2)) ∧
     (((⟨30, 1⟩ : CharPosition).angle = (camRecord 30 60).visible_range.1 ∨
       (⟨30, 1⟩ : CharPosition).angle = (camRecord 30 60).visible_range.2) →
        "A" ∈ get_visible_characters envC1 "s")) :=
  ⟨⟨by decide, by decide, by decide⟩,
   C1_visible_entities_interval_test envC1 "s" "A" (camRecord 30 60)
     ⟨30, 1⟩ (by decide) (by decide) (by decide)⟩

/-- C4 counterexample: querying the never-registered camera id
`"ghost"` returns the empty list, the very same observable result as
querying the registered camera `"cam"` (at 180°, field of view 60°)
that sees no entity; no error or tagged outcome distinguishes them. -/
theorem C4_counterexample :
    lookupAssoc (register_character_position empty0 "Alice" 0 1).camera_angles
        "ghost" = none ∧
    get_visible_characters (register_character_position empty0 "Alice" 0 1)
        "ghost" = [] ∧
    lookupAssoc (register_camera_angle
        (register_character_position empty0 "Alice" 0 1) "cam" 180 60).camera_angles
        "cam" = some (camRecord 180 60) ∧
    get_visible_characters (register_camera_angle
        (register_character_position empty0 "Alice" 0 1) "cam" 180 60)
        "cam" = [] :=
  ⟨by decide, by decide, by decide, by decide⟩

/-- C4 amended: querying `get_visible_characters` for an unregistered
camera id silently returns the empty list — indistinguishable from a
registered camera that sees no entities. -/
theorem C4_unregistered_returns_empty (env : EnvironmentManager)
    (scene_id : String)
    (h : lookupAssoc env.camera_angles scene_id = none) :
    get_visible_characters env scene_id = [] := by
  rw [get_visible_characters, h]

/-- C4 amended, witness: the amended theorem applied to a concrete
one-entity registry and the unregistered id `"ghost"`. -/
theorem C4_witness :
    lookupAssoc (register_character_position empty0 "Alice" 0 1).camera_angles
        "ghost" = none ∧
    get_visible_characters (register_character_position empty0 "Alice" 0 1)
        "ghost" = [] :=
  ⟨by decide,
   C4_unregistered_returns_empty
     (register_character_position empty0 "Alice" 0 1) "ghost" (by decide)⟩

/-- C5 counterexample: the camera `"s"` registered with
`field_of_view = 360` at angle 0 does *not* see everything — the entity
`"A"` registered at 90° is not reported visible (the computed
`visible_range` is `(180, 180)`, so only an entity at exactly 180°
would pass the test). -/
theorem C5_counterexample :
    get_visible_characters
      (register_camera_angle
        (register_character_position empty0 "A" 90 1) "s" 0 360) "s" = [] := by
  decide

/-- C5 amended: `field_of_view = 360` is accepted by registration, but
the stored `visible_range` degenerates to the single point
`(angle + 180) mod 360` at both ends, so an entity is reported visible
iff its normalized angle equals exactly `(angle + 180) mod 360` — not
"everything". -/
theorem C5_fov360_sees_only_antipode (env : EnvironmentManager)
    (scene_id name : String) (a : ℚ) (pos : CharPosition)
    (hn : (env.character_positions.map Prod.fst).Nodup)
    (hp : lookupAssoc env.character_positions name = some pos) :
    (camRecord a 360).visible_range.1 = pymod (a + 180) 360 ∧
    (camRecord a 360).visible_range.2 = pymod (a + 180) 360 ∧
    (name ∈ get_visible_characters
        (register_camera_angle env scene_id a 360) scene_id ↔
      pos.angle = pymod (a + 180) 360) := by
  have h180 : qdiv (360 : ℚ) 2 = 180 := by decide
  have hs : (camRecord a 360).visible_range.1 = pymod (a + 180) 360 := by
    show pymod (a - qdiv 360 2) 360 = pymod (a + 180) 360
    rw [h180]
    exact pymod_congr (-1) (by norm_num) (by push_cast; ring)
  have he : (camRecord a 360).visible_range.2 = pymod (a + 180) 360 := by
    show pymod (a + qdiv 360 2) 360 = pymod (a + 180) 360
    rw [h180]
  refine ⟨hs, he, ?_⟩
  have hcam : lookupAssoc
      (register_camera_angle env scene_id a 360).camera_angles scene_id =
      some (camRecord a 360) := lookup_update_self _ _ _
  have hunfold : get_visible_characters
      (register_camera_angle env scene_id a 360) scene_id =
      env.character_positions.filterMap
        (visibility_entry (camRecord a 360).visible_range.1
          (camRecord a 360).visible_range.2) := by
    rw [get_visible_characters, hcam]
    rfl
  rw [hunfold,
    mem_visible_iff env.character_positions _ _ hn name pos hp, hs, he,
    if_pos le_rfl]
  constructor
  · rintro ⟨h1, h2⟩
    exact le_antisymm h2 h1
  · rintro h
    exact ⟨le_of_eq h.symm, le_of_eq h⟩

/-- C5 witness: the amended theorem applied to an entity at 180° and a
fov-360 camera at 0°, whose degenerate visible range is `(180, 180)`. -/
theorem C5_witness :
    (((register_character_position empty0 "B" 180 1).character_positions.map
        Prod.fst).Nodup ∧
     lookupAssoc (register_character_position empty0 "B" 180 1).character_positions
        "B" = some (⟨180, 1⟩ : CharPosition)) ∧
    ((camRecord 0 360).visible_range.1 = pymod ((0 : ℚ) + 180) 360 ∧
     (camRecord 0 360).visible_range.2 = pymod ((0 : ℚ) + 180) 360 ∧
     ("B" ∈ get_visible_characters
        (register_camera_angle (register_character_position empty0 "B" 180 1)
          "t" 0 360) "t" ↔
       (⟨180, 1⟩ : CharPosition).angle = pymod ((0 : ℚ) + 180) 360)) :=
  ⟨⟨by decide, by decide⟩,
   C5_fov360_sees_only_antipode (register_character_position empty0 "B" 180 1)
     "t" "B" 0 ⟨180, 1⟩ (by decide) (by decide)⟩

/-- C6: the record stored by `register_camera_angle` has
`visible_range = ((a - f/2) mod 360, (a + f/2) mod 360)`, and the
circular width `(end - start) mod 360` of that interval equals
`f mod 360` — exactly, since the embedding computes in ℚ. -/
theorem C6_visible_range_width (env : EnvironmentManager) (scene_id : String)
    (a f : ℚ) (hf : 0 < f) :
    lookupAssoc (register_camera_angle env scene_id a f).camera_angles scene_id =
      some (camRecord a f) ∧
    (camRecord a f).visible_range.1 = pymod (a - f / 2) 360 ∧
    (camRecord a f).visible_range.2 = pymod (a + f / 2) 360 ∧
    pymod ((camRecord a f).visible_range.2 - (camRecord a f).visible_range.1)
        360 = pymod f 360 := by
  refine ⟨lookup_update_self _ _ _, ?_, ?_, ?_⟩
  · show pymod (a - qdiv f 2) 360 = pymod (a - f / 2) 360
    rw [qdiv_eq]
  · show pymod (a + qdiv f 2) 360 = pymod (a + f / 2) 360
    rw [qdiv_eq]
  · show pymod (pymod (a + qdiv f 2) 360 - pymod (a - qdiv f 2) 360) 360 =
      pymod f 360
    rw [qdiv_eq, pymod_eq (a + f / 2) 360, pymod_eq (a - f / 2) 360]
    apply pymod_congr (⌊(a - f / 2) / 360⌋ - ⌊(a + f / 2) / 360⌋) (by norm_num)
    push_cast
    ring

/-- C6 witness: the theorem applied at camera angle 30 and field of
view 90. -/
theorem C6_witness :
    (0 : ℚ) < 90 ∧
    (lookupAssoc (register_camera_angle empty0 "s" 30 90).camera_angles "s" =
       some (camRecord 30 90) ∧
     (camRecord 30 90).visible_range.1 = pymod ((30 : ℚ) - 90 / 2) 360 ∧
     (camRecord 30 90).visible_range.2 = pymod ((30 : ℚ) + 90 / 2) 360 ∧
     pymod ((camRecord 30 90).visible_range.2 -
         (camRecord 30 90).visible_range.1) 360 = pymod 90 360) :=
  ⟨by norm_num, C6_visible_range_width empty0 "s" 30 90 (by norm_num)⟩

/-- C7: registration normalizes angles: the entity record stored for
angle `a` carries `a mod 360 ∈ [0, 360)` (and the given depth), and
likewise the camera record's stored angle is `a mod 360`. -/
theorem C7_angles_normalized (env : EnvironmentManager)
    (name scene_id : String) (a f depth : ℚ) :
    lookupAssoc (register_character_position env name a depth).character_positions
        name = some (⟨pymod a 360, depth⟩ : CharPosition) ∧
    lookupAssoc (register_camera_angle env scene_id a f).camera_angles scene_id =
      some (camRecord a f) ∧
    (camRecord a f).angle = pymod a 360 ∧
    pymod a 360 = a - 360 * ⌊a / 360⌋ ∧
    0 ≤ pymod a 360 ∧ pymod a 360 < 360 :=
  ⟨lookup_update_self _ _ _, lookup_update_self _ _ _, rfl, pymod_eq a 360,
   pymod_nonneg a 360 (by norm_num), pymod_lt a 360 (by norm_num)⟩

/-- C8: registration is last-write-wins and idempotent: registering the
same camera id twice with identical parameters stores an identical
record (hence identical `visible_range`) both times, and re-registering
an existing id — camera or entity — with new parameters makes lookup
return exactly the new record, so the old one is no longer queryable. -/
theorem C8_last_write_wins (env : EnvironmentManager) (scene_id name : String)
    (a f a0 f0 ang dep ang0 dep0 : ℚ) :
    lookupAssoc (register_camera_angle env scene_id a f).camera_angles scene_id =
      some (camRecord a f) ∧
    lookupAssoc (register_camera_angle (register_camera_angle env scene_id a f)
        scene_id a f).camera_angles scene_id = some (camRecord a f) ∧
    lookupAssoc (register_camera_angle (register_camera_angle env scene_id a0 f0)
        scene_id a f).camera_angles scene_id = some (camRecord a f) ∧
    lookupAssoc (register_character_position env name ang dep).character_positions
        name = some (⟨pymod ang 360, dep⟩ : CharPosition) ∧
    lookupAssoc (register_character_position
        (register_character_position env name ang0 dep0)
        name ang dep).character_positions name =
      some (⟨pymod ang 360, dep⟩ : CharPosition) :=
  ⟨lookup_update_self _ _ _, lookup_update_self _ _ _, lookup_update_self _ _ _,
   lookup_update_self _ _ _, lookup_update_self _ _ _⟩

/-- The visibility loop only reads each entry's name and angle, so two
position lists that agree on those produce the same output. -/
theorem filterMap_visibility_congr (s e : ℚ)
    (l1 l2 : List (String × CharPosition))
    (h : l1.map (fun p => (p.1, p.2.angle)) =
         l2.map (fun p => (p.1, p.2.angle))) :
    l1.filterMap (visibility_entry s e) =
      l2.filterMap (visibility_entry s e) := by
  induction l1 generalizing l2 with
  | nil =>
      cases l2 with
      | nil => rfl
      | cons q t2 => simp at h
  | cons p t ih =>
      cases l2 with
      | nil => simp at h
      | cons q t2 =>
          simp only [List.map_cons, List.cons.injEq, Prod.mk.injEq] at h
          have hpq : visibility_entry s e p = visibility_entry s e q := by
            rw [visibility_entry, visibility_entry, h.1.1, h.1.2]
          rw [List.filterMap_cons, List.filterMap_cons, hpq, ih t2 h.2]

/-- C9: depth does not influence visibility — two registry states with
the same camera records and the same entity names and angles (but
arbitrary depths) give the same `get_visible_characters` result for
every camera id. -/
theorem C9_depth_noninterference (env1 env2 : EnvironmentManager)
    (scene_id : String)
    (hcam : env1.camera_angles = env2.camera_angles)
    (hpos : env1.character_positions.map (fun p => (p.1, p.2.angle)) =
            env2.character_positions.map (fun p => (p.1, p.2.angle))) :
    get_visible_characters env1 scene_id =
      get_visible_characters env2 scene_id := by
  simp only [get_visible_characters, hcam]
  cases lookupAssoc env2.camera_angles scene_id with
  | none => rfl
  | some camera => exact filterMap_visibility_congr _ _ _ _ hpos

/-- C9 witness: the theorem applied to two one-entity states that differ
only in the entity's depth (0 versus 1). -/
theorem C9_witness :
    ((register_camera_angle (register_character_position empty0 "A" 10 0)
        "s" 0 60).camera_angles =
     (register_camera_angle (register_character_position empty0 "A" 10 1)
        "s" 0 60).camera_angles ∧
     (register_camera_angle (register_character_position empty0 "A" 10 0)
        "s" 0 60).character_positions.map (fun p => (p.1, p.2.angle)) =
     (register_camera_angle (register_character_position empty0 "A" 10 1)
        "s" 0 60).character_positions.map (fun p => (p.1, p.2.angle))) ∧
    get_visible_characters (register_camera_angle
        (register_character_position empty0 "A" 10 0) "s" 0 60) "s" =
      get_visible_characters (register_camera_angle
        (register_character_position empty0 "A" 10 1) "s" 0 60) "s" :=
  ⟨⟨by decide, by decide⟩,
   C9_depth_noninterference
     (register_camera_angle (register_character_position empty0 "A" 10 0)
       "s" 0 60)
     (register_camera_angle (register_character_position empty0 "A" 10 1)
       "s" 0 60)
     "s" (by decide) (by decide)⟩

/-- C10: the two maps are independent — registering a camera leaves the
entity map untouched and every other camera record unchanged, and
registering an entity leaves the camera map untouched and every other
entity record unchanged. -/
theorem C10_map_independence (env : EnvironmentManager)
    (scene_id other_id name other_name : String) (a f ang dep : ℚ)
    (hco : other_id ≠ scene_id) (hno : other_name ≠ name) :
    (register_camera_angle env scene_id a f).character_positions =
      env.character_positions ∧
    lookupAssoc (register_camera_angle env scene_id a f).camera_angles
        other_id = lookupAssoc env.camera_angles other_id ∧
    (register_character_position env name ang dep).camera_angles =
      env.camera_angles ∧
    lookupAssoc (register_character_position env name ang dep).character_positions
        other_name = lookupAssoc env.character_positions other_name :=
  ⟨rfl, lookup_update_ne _ _ hco, rfl, lookup_update_ne _ _ hno⟩

/-- C10 witness: the theorem applied to concrete distinct ids. -/
theorem C10_witness :
    (("other" : String) ≠ "s" ∧ ("Bob" : String) ≠ "Alice") ∧
    ((register_camera_angle empty0 "s" 0 60).character_positions =
       empty0.character_positions ∧
     lookupAssoc (register_camera_angle empty0 "s" 0 60).camera_angles
         "other" = lookupAssoc empty0.camera_angles "other" ∧
     (register_character_position empty0 "Alice" 0 1).camera_angles =
       empty0.camera_angles ∧
     lookupAssoc (register_character_position empty0 "Alice" 0 1).character_positions
         "Bob" = lookupAssoc empty0.character_positions "Bob") :=
  ⟨⟨by decide, by decide⟩,
   C10_map_independence empty0 "s" "other" "Alice" "Bob" 0 60 0 1
     (by decide) (by decide)⟩

/-- On nonnegative angles — all angles a registered camera can carry —
the code's `int(...)` truncation is the floor of `angle/360 * width`. -/
theorem angle_to_px_eq_floor {angle : ℚ} (W : ℕ) (h : 0 ≤ angle) :
    angle_to_px angle W = ⌊angle / 360 * (W : ℚ)⌋ := by
  rw [angle_to_px, qdiv_eq,
    pytrunc_eq_floor (mul_nonneg (div_nonneg h (by norm_num)) (Nat.cast_nonneg W))]

/-- C3 counterexample: the camera registered with angle 0 and field of
view 2 has `visible_range` start 359; on a panorama of width 100 the
code computes pixel column `int(359/360 * 100) = 99`, while the claimed
`round(359/360 * 100) = 100` — the two conversions disagree. -/
theorem C3_counterexample :
    lookupAssoc (register_camera_angle empty0 "s" 0 2).camera_angles "s" =
      some (camRecord 0 2) ∧
    (camRecord 0 2).visible_range.1 = 359 ∧
    angle_to_px 359 100 = 99 ∧
    spec_round_px 359 100 = 100 ∧
    angle_to_px 359 100 ≠ spec_round_px 359 100 := by
  have h3 : angle_to_px 359 100 = 99 := by decide
  have h4 : spec_round_px 359 100 = 100 := by
    rw [spec_round_px, round_eq, Int.floor_eq_iff]
    norm_num
  refine ⟨by decide, by decide, h3, h4, ?_⟩
  rw [h3, h4]
  decide

/-- C3 amended: `extract_view` converts each endpoint of a registered
camera's visible range to a pixel column by *truncation*,
`px = int(angle/360 * width)`, which on the normalized (nonnegative)
stored angles equals the floor — not by rounding to the nearest
integer. -/
theorem C3_px_truncation (env : EnvironmentManager) (scene_id : String)
    (a f : ℚ) (W : ℕ) (camera : CameraRecord)
    (hc : lookupAssoc (register_camera_angle env scene_id a f).camera_angles
        scene_id = some camera) :
    camera = camRecord a f ∧
    angle_to_px camera.visible_range.1 W =
      ⌊camera.visible_range.1 / 360 * (W : ℚ)⌋ ∧
    angle_to_px camera.visible_range.2 W =
      ⌊camera.visible_range.2 / 360 * (W : ℚ)⌋ := by
  have hkey : lookupAssoc
      (register_camera_angle env scene_id a f).camera_angles scene_id =
      some (camRecord a f) := lookup_update_self _ _ _
  rw [hkey] at hc
  injection hc with hcam
  have h1 : 0 ≤ camera.visible_range.1 := by
    rw [← hcam]
    exact pymod_nonneg _ 360 (by norm_num)
  have h2 : 0 ≤ camera.visible_range.2 := by
    rw [← hcam]
    exact pymod_nonneg _ 360 (by norm_num)
  exact ⟨hcam.symm, angle_to_px_eq_floor W h1, angle_to_px_eq_floor W h2⟩

/-- C3 amended, witness: the amended theorem applied to the registered
camera `"s"` (angle 0, fov 2) and width 100. -/
theorem C3_witness :
    lookupAssoc (register_camera_angle empty0 "s" 0 2).camera_angles "s" =
      some (camRecord 0 2) ∧
    (camRecord 0 2 = camRecord 0 2 ∧
     angle_to_px (camRecord 0 2).visible_range.1 100 =
       ⌊(camRecord 0 2).visible_range.1 / 360 * (100 : ℚ)⌋ ∧
     angle_to_px (camRecord 0 2).visible_range.2 100 =
       ⌊(camRecord 0 2).visible_range.2 / 360 * (100 : ℚ)⌋) :=
  ⟨by decide, C3_px_truncation empty0 "s" 0 2 100 (camRecord 0 2) (by decide)⟩

/-- C2: for a registered camera whose pixel bounds wrap
(`end_px < start_px`), `extract_camera_view` returns exactly the
concatenation of the crop `[start_px, W)` (pasted first) and the crop
`[0, end_px)` (pasted second); the output has width
`(W - start_px) + end_px` and every column keeps its height `H`. -/
theorem C2_wrap_crop {α : Type} (env : EnvironmentManager) (scene_id : String)
    (camera : CameraRecord) (panorama : List (List α)) (H : ℕ)
    (hc : lookupAssoc env.camera_angles scene_id = some camera)
    (hs0 : 0 ≤ camera.visible_range.1)
    (hs1 : camera.visible_range.1 < 360)
    (hH : ∀ col ∈ panorama, col.length = H)
    (hwrap : angle_to_px camera.visible_range.2 panorama.length <
             angle_to_px camera.visible_range.1 panorama.length) :
    extract_camera_view env panorama scene_id =
      Except.ok
        (crop panorama
            (angle_to_px camera.visible_range.1 panorama.length).toNat
            panorama.length ++
         crop panorama 0
            (angle_to_px camera.visible_range.2 panorama.length).toNat) ∧
    (crop_panorama_view panorama camera).length =
      (panorama.length -
        (angle_to_px camera.visible_range.1 panorama.length).toNat) +
      (angle_to_px camera.visible_range.2 panorama.length).toNat ∧
    ∀ col ∈ crop_panorama_view panorama camera, col.length = H := by
  have hsleW : angle_to_px camera.visible_range.1 panorama.length ≤
      (panorama.length : ℤ) := by
    rw [angle_to_px_eq_floor _ hs0]
    have hdle : camera.visible_range.1 / 360 ≤ 1 :=
      (div_le_one (by norm_num)).mpr hs1.le
    have h1 : camera.visible_range.1 / 360 * (panorama.length : ℚ) ≤
        (panorama.length : ℚ) := by
      calc camera.visible_range.1 / 360 * (panorama.length : ℚ) ≤
            1 * (panorama.length : ℚ) :=
          mul_le_mul_of_nonneg_right hdle (Nat.cast_nonneg _)
        _ = (panorama.length : ℚ) := one_mul _
    calc ⌊camera.visible_range.1 / 360 * (panorama.length : ℚ)⌋ ≤
          ⌊(panorama.length : ℚ)⌋ := Int.floor_le_floor h1
      _ = (panorama.length : ℤ) := Int.floor_natCast _
  have heW : (angle_to_px camera.visible_range.2 panorama.length).toNat ≤
      panorama.length := Int.toNat_le.mpr (le_trans hwrap.le hsleW)
  have hview : crop_panorama_view panorama camera =
      crop panorama
          (angle_to_px camera.visible_range.1 panorama.length).toNat
          panorama.length ++
        crop panorama 0
          (angle_to_px camera.visible_range.2 panorama.length).toNat := by
    simp only [crop_panorama_view]
    rw [if_pos hwrap]
  refine ⟨?_, ?_, ?_⟩
  · rw [extract_camera_view, hc]
    show Except.ok (crop_panorama_view panorama camera) = _
    rw [hview]
  · rw [hview, crop, crop, List.take_length, List.drop_zero,
      List.length_append, List.length_drop, List.length_take,
      min_eq_left heW]
  · intro col hcol
    rw [hview] at hcol
    rcases List.mem_append.mp hcol with h | h
    · exact hH _ (List.take_subset _ _ (List.drop_subset _ _ h))
    · exact hH _ (List.take_subset _ _ (List.drop_subset _ _ h))

set_option maxRecDepth 100000 in
/-- C2 witness: camera `"w"` at 351° with fov 54° has
`visible_range = (324, 18)`; on the width-1000 panorama the pixel
bounds are `(900, 50)`, they wrap, the output is the concatenated pair
of crops of total width 150, its leftmost column is the panorama's
column 900 and its rightmost is column 49. -/
theorem C2_witness :
    (angle_to_px (camRecord 351 54).visible_range.2 pano1000.length <
     angle_to_px (camRecord 351 54).visible_range.1 pano1000.length) ∧
    extract_camera_view (register_camera_angle empty0 "w" 351 54) pano1000
        "w" = Except.ok (crop pano1000 900 1000 ++ crop pano1000 0 50) ∧
    (crop_panorama_view pano1000 (camRecord 351 54)).length = 150 ∧
    (crop_panorama_view pano1000 (camRecord 351 54)).head? = some [900] ∧
    (crop_panorama_view pano1000 (camRecord 351 54)).getLast? = some [49] := by
  have h := C2_wrap_crop (register_camera_angle empty0 "w" 351 54) "w"
    (camRecord 351 54) pano1000 1 (by decide) (by decide) (by decide)
    (fun col hcol => by
      rcases List.mem_map.mp hcol with ⟨i, _, rfl⟩
      rfl)
    (by decide)
  have e1 : (angle_to_px (camRecord 351 54).visible_range.1
      pano1000.length).toNat = 900 := by decide
  have e2 : (angle_to_px (camRecord 351 54).visible_range.2
      pano1000.length).toNat = 50 := by decide
  have e3 : pano1000.length = 1000 := by decide
  refine ⟨by decide, ?_, by decide, by decide, by decide⟩
  have h1 := h.1
  rw [e1, e2, e3] at h1
  exact h1
